import Mathlib

/-!
Verification of the icecloud fleet orchestrator against its design document.

The Go program (`icecloud.go`, `template.go`) is shallowly embedded below.
External effects (the EC2 API, the ssh transport, template rendering, the
clock) are modelled as explicit oracles passed to the embedded operations:

* instance creation responses are indexed by the node's position in the
  fleet (the Provisioner issues exactly one creation call per node, in
  declaration order);
* instance-description responses are indexed per node and per poll time
  (the readiness loop polls at t = 0, 5, 10, ... seconds);
* termination and ssh outcomes are functions of the instance id / command.

Concurrent fan-out/fan-in stages (readiness waits, configuration rollout,
shutdown aggregation) are determinized in fleet order: each worker owns
exactly one node's state and the aggregations (conjunction of outcomes,
per-node state write-back) are order-independent, so this determinization
is faithful to every interleaving.
-/

/-- One EC2 instance, as far as the orchestrator reads it:
`InstanceId` and `DNSName` (from `ec2.Instance`). -/
structure Instance where
  instanceId : String
  dnsName : String
deriving Repr, DecidableEq

/-- One EC2 reservation from a describe-instances response
(`resp.Reservations[k].Instances`). -/
structure Reservation where
  instances : List Instance
deriving Repr, DecidableEq

/-- The `Icecast` credential record of `icecloud.go`. -/
structure Icecast where
  sourcePassword : String
  relayPassword : String
  adminPassword : String
  listenPort : Int
deriving Repr, DecidableEq

/-- The `Server` record of `icecloud.go`.  The Go field `Instance` is a
pointer, embedded as `Option Instance` and named `inst` because `instance`
is a Lean keyword. -/
structure Server where
  name : String
  kind : String
  location : String
  username : String
  imageID : String
  size : String
  numClients : Int
  numSources : Int
  inst : Option Instance
deriving Repr, DecidableEq

/-- The `Config` record of `icecloud.go`: key name, ordered node list,
optional credential set.  (The private `auth` field only feeds the AWS
client constructor and carries no orchestration state.) -/
structure Config where
  keyName : String
  server : List Server
  icecast : Option Icecast
deriving Repr, DecidableEq

/-- The user-authored (spec) part of a `Server`: every field except the
runtime `inst` state.  Used to state frame conditions. -/
structure SpecPart where
  name : String
  kind : String
  location : String
  username : String
  imageID : String
  size : String
  numClients : Int
  numSources : Int
deriving Repr, DecidableEq

/-- Projection of a `Server` onto its user-authored fields. -/
def Server.specPart (s : Server) : SpecPart :=
  ⟨s.name, s.kind, s.location, s.username, s.imageID, s.size,
   s.numClients, s.numSources⟩

/-- `Config.ServerURL`: empty string when the node has no instance or the
credential set is absent, otherwise `http://<dns>:<port>/`. -/
def ServerURL (c : Config) (s : Server) : String :=
  match s.inst, c.icecast with
  | some i, some ice => "http://" ++ i.dnsName ++ ":" ++ toString ice.listenPort ++ "/"
  | _, _ => ""

/-- Did an `Except` computation succeed?  (Go: `err == nil`.) -/
def exceptOk {ε α : Type} : Except ε α → Bool
  | .ok _ => true
  | .error _ => false

/-! ## Provisioning (`runInstance`, the sequential loop in `Run`) -/

/-- `Config.runInstance` applied to one creation response: provider error
is propagated; a response whose instance count ≠ 1 is rejected; otherwise
the node's runtime state receives the returned instance. -/
def runInstance (resp : Except String (List Instance)) (s : Server) :
    Except String Server :=
  match resp with
  | .error e => .error e
  | .ok insts =>
    if insts.length = 1 then
      .ok { s with inst := insts.head? }
    else
      .error ("want 1 instance, got " ++ toString insts.length)

/-- Does a creation response make `runInstance` succeed? -/
def provOk : Except String (List Instance) → Bool
  | .error _ => false
  | .ok insts => insts.length == 1

/-- The instance a successful creation response assigns to the node. -/
def provInst : Except String (List Instance) → Option Instance
  | .error _ => none
  | .ok insts => insts.head?

/-- Instance id assigned by a successful creation response. -/
def provId (resp : Except String (List Instance)) : String :=
  match provInst resp with
  | some i => i.instanceId
  | none => ""

/-- A node after a successful creation response. -/
def provServer (resp : Except String (List Instance)) (s : Server) : Server :=
  { s with inst := provInst resp }

/-- The sequential provisioning loop of `Config.Run` (`for _, s := range
c.Server { if err := c.runInstance(s); ... }`), with the creation response
for the node at fleet index `i` given by `env i`.  Returns the updated
node list, the list of fleet indices whose provisioning was attempted (in
order), and the index of the failed node, if any.  On failure the loop
stops: the failing node and all later nodes keep their previous state. -/
def provisionFrom (env : Nat → Except String (List Instance)) :
    Nat → List Server → List Server × List Nat × Option Nat
  | _, [] => ([], [], none)
  | i, s :: rest =>
    match runInstance (env i) s with
    | .error _ => (s :: rest, [i], some i)
    | .ok s' =>
      match provisionFrom env (i + 1) rest with
      | (rest', att, fail) => (s' :: rest', i :: att, fail)

/-- The node list after the first `k` nodes (from fleet index `i`) have
been provisioned and the rest left untouched. -/
def provUpTo (env : Nat → Except String (List Instance)) :
    Nat → Nat → List Server → List Server
  | _, 0, l => l
  | _, _ + 1, [] => []
  | i, k + 1, s :: rest => provServer (env i) s :: provUpTo env (i + 1) k rest

/-! ## Readiness polling (`getInstance`, `waitReady`) -/

/-- `Config.getInstance` applied to one describe-instances response:
transport errors are propagated; a response without exactly one
reservation holding exactly one instance is rejected; otherwise the
node's runtime state is overwritten with the described instance. -/
def getInstance (resp : Except String (List Reservation)) (s : Server) :
    Except String (Server × Instance) :=
  match resp with
  | .error e => .error e
  | .ok rs =>
    match rs with
    | [r] =>
      match r.instances with
      | [i] => .ok ({ s with inst := some i }, i)
      | insts => .error ("getInstance: want 1 instance, got " ++ toString insts.length)
    | _ => .error ("getInstance: want 1 reservation, got " ++ toString rs.length)

/-- The instance described by a well-formed describe response
(exactly one reservation with exactly one instance), if any. -/
def respInst : Except String (List Reservation) → Option Instance
  | .error _ => none
  | .ok rs =>
    match rs with
    | [r] =>
      match r.instances with
      | [i] => some i
      | _ => none
    | _ => none

/-- The address reported by the `j`-th poll (at time `5*j` seconds) of a
poll oracle, empty when the response is not well-formed. -/
def pollDns (polls : Nat → Except String (List Reservation)) (j : Nat) : String :=
  match respInst (polls (5 * j)) with
  | some i => i.dnsName
  | none => ""

/-- `Config.waitReady`, started at time `t` seconds: while `t` is before
the 120-second deadline, describe the instance (`polls t` is the response
obtained at time `t`); a transport/describe error is returned immediately;
a non-empty `DNSName` is success; otherwise sleep 5 seconds and poll
again.  When the deadline elapses the timeout error is returned. -/
def waitReadyFrom (polls : Nat → Except String (List Reservation))
    (s : Server) (t : Nat) : Server × Except String Unit :=
  if _h : t < 120 then
    match getInstance (polls t) s with
    | .error e => (s, .error e)
    | .ok (s', i) =>
      if i.dnsName ≠ "" then (s', .ok ())
      else waitReadyFrom polls s' (t + 5)
  else
    (s, .error "waitReady: server took too long")
termination_by 120 - t
decreasing_by omega

/-- `Config.waitReady`: the poll loop started at time 0. -/
def waitReady (polls : Nat → Except String (List Reservation)) (s : Server) :
    Server × Except String Unit :=
  waitReadyFrom polls s 0

/-! ## Shutdown -/

/-- The loop of `Config.Shutdown` with its `ok` accumulator: nodes
without an instance are skipped; for each node with an instance a
termination request for its id is issued (`term` gives the outcome) and a
failure clears `ok`, but the loop always continues to the next node.
Returns the issued termination requests (in order) and the final flag. -/
def shutdownLoop (term : String → Bool) :
    List Server → Bool → List String × Bool
  | [], ok => ([], ok)
  | s :: rest, ok =>
    match s.inst with
    | none => shutdownLoop term rest ok
    | some i =>
      match shutdownLoop term rest (ok && term i.instanceId) with
      | (reqs, ok') => (i.instanceId :: reqs, ok')

/-- `Config.Shutdown`: run the termination loop over the whole fleet and
report an aggregate error iff some termination failed. -/
def Shutdown (term : String → Bool) (servers : List Server) :
    List String × Except String Unit :=
  match shutdownLoop term servers true with
  | (reqs, ok) =>
    (reqs,
     if ok then Except.ok ()
     else Except.error "some instances didn't shut down cleanly")

/-! ## Run -/

/-- Oracles for `Config.Run`: `runInst i` is the creation response for the
node at fleet index `i`; `polls i t` is the describe response node `i`'s
readiness worker obtains at time `t` of its wait; `term id` is the outcome
of terminating instance `id`. -/
structure RunEnv where
  runInst : Nat → Except String (List Instance)
  polls : Nat → Nat → Except String (List Reservation)
  term : String → Bool

/-- Observable outcome of `Config.Run`: final config, fleet indices whose
provisioning was attempted, termination requests issued by the rollback
path, and the returned result. -/
structure RunOut where
  config : Config
  attempts : List Nat
  termReqs : List String
  result : Except String Unit

/-- `Config.Run`: provision sequentially; on the first failure call
`Shutdown` on the nodes as updated so far and return ITS result (the
provisioning error itself is only logged).  On full success, wait for
every node's readiness concurrently (each worker owns its node's state
and its error is only logged), then return success. -/
def Run (env : RunEnv) (c : Config) : RunOut :=
  match provisionFrom env.runInst 0 c.server with
  | (srv, att, some _) =>
    match Shutdown env.term srv with
    | (reqs, res) => ⟨{ c with server := srv }, att, reqs, res⟩
  | (srv, att, none) =>
    ⟨{ c with server := srv.enum.map fun p => (waitReadyFrom (env.polls p.1) p.2 0).1 },
     att, [], Except.ok ()⟩

/-! ## Setup (configuration rollout) -/

/-- Observable per-node events of a configuration rollout: rendering the
setup script (a `SetupTemplate` call) and issuing a remote command. -/
inductive SetupEvent where
  | render : SetupEvent
  | ssh : String → SetupEvent
deriving Repr, DecidableEq

/-- Oracles for `Config.Setup`: `tmpl s m` is the outcome of rendering the
setup template for node `s` with optional master `m`; `ssh s cmd` is the
outcome of running `cmd` on node `s` over the transport. -/
structure SetupEnv where
  tmpl : Server → Option Server → Except String Unit
  ssh : Server → String → Except String Unit

/-- `Config.sshCommand`: a node without an instance is rejected before any
remote command is issued; otherwise the command is issued (recorded as an
event) and the transport outcome returned. -/
def sshCommand (env : SetupEnv) (s : Server) (command : String) :
    List SetupEvent × Except String Unit :=
  match s.inst with
  | none => ([], .error "sshCommand: nil instance")
  | some _ => ([SetupEvent.ssh command], env.ssh s command)

/-- The tail of `Config.setupInstance` after the master lookup: render the
script, upload it (`cat > setup.sh`), then execute it (`bash setup.sh`),
stopping at the first failure. -/
def setupRollout (env : SetupEnv) (s : Server) (rendered : Except String Unit) :
    List SetupEvent × Except String Unit :=
  match rendered with
  | .error e => ([SetupEvent.render], .error e)
  | .ok _ =>
    match sshCommand env s "cat > setup.sh" with
    | (ev₁, .error e) => (SetupEvent.render :: ev₁, .error e)
    | (ev₁, .ok _) =>
      match sshCommand env s "bash setup.sh" with
      | (ev₂, r₂) => (SetupEvent.render :: (ev₁ ++ ev₂), r₂)

/-- `Config.setupInstance`: a master node renders with no master
parameter; a non-master node first looks up the first master in the fleet
and fails (before rendering or any remote command) when there is none. -/
def setupInstance (env : SetupEnv) (c : Config) (s : Server) :
    List SetupEvent × Except String Unit :=
  if s.kind == "master" then
    setupRollout env s (env.tmpl s none)
  else
    match c.server.find? (fun n => n.kind == "master") with
    | none => ([], Except.error "no master found in config")
    | some m => setupRollout env s (env.tmpl s (some m))

/-- `Config.Setup`: roll out every node (one worker per node; the fan-in
conjunction over the result channel is determinized in fleet order) and
succeed iff every node's rollout succeeded. -/
def Setup (env : SetupEnv) (c : Config) : Except String Unit :=
  let results := c.server.map fun s => exceptOk (setupInstance env c s).2
  if results.foldl (fun a b => a && b) true then Except.ok ()
  else Except.error "some instances didn't set up cleanly"

/-! ## Playlists -/

/-- One playlist entry: the node's server URL followed by the mount name
(`fmt.Sprintf("%s%s", c.ServerURL(s), mount)`). -/
def urlEntry (c : Config) (mount : String) (s : Server) : String :=
  ServerURL c s ++ mount

/-- The entry list built by `writePlaylist` for the non-master node at
fleet index `i`: its own entry first, then the entry of every other
non-master node in fleet order. -/
def playlistServers (c : Config) (mount : String) (i : Nat) (s : Server) :
    List String :=
  urlEntry c mount s ::
    (c.server.enum.filterMap fun p =>
      if p.2.kind == "master" || i == p.1 then none
      else some (urlEntry c mount p.2))

/-- The m3u template `{{range .}}{{.}}\n{{end}}`: each entry on its own
line. -/
def m3uRender : List String → String
  | [] => ""
  | s :: rest => s ++ "\n" ++ m3uRender rest

/-- One block of the pls template for the entry at zero-based position
`i` (the template's `idx` helper turns it one-based). -/
def plsItem (i : Nat) (s : String) : String :=
  "\nFile" ++ toString (i + 1) ++ "=" ++ s ++
  "\nTitle" ++ toString (i + 1) ++ "=Server " ++ toString (i + 1) ++
  "\nLength" ++ toString (i + 1) ++ "=-1\n"

/-- The `{{range $i, $s := .}}...{{end}}` body of the pls template. -/
def plsBody : Nat → List String → String
  | _, [] => ""
  | i, s :: rest => plsItem i s ++ plsBody (i + 1) rest

/-- The pls template: `[playlist]` header, one indexed block per entry,
then `NumberOfEntries` (the entry count) and `Version=2`. -/
def plsRender (entries : List String) : String :=
  "\n[playlist]\n" ++ plsBody 0 entries ++
  "\nNumberOfEntries=" ++ toString entries.length ++ "\nVersion=2\n"

/-- `Config.writePlaylist` for one mount and one output format: one file
per non-master node, named `<mount>-<name>.<ext>`, holding the rendered
entry list of that node.  Returned as (file name, contents) pairs. -/
def writePlaylist (c : Config) (mount ext : String)
    (render : List String → String) : List (String × String) :=
  c.server.enum.filterMap fun p =>
    if p.2.kind == "master" then none
    else some (mount ++ "-" ++ p.2.name ++ "." ++ ext,
               render (playlistServers c mount p.1 p.2))

/-- `Config.Playlist`: for each mount, write the m3u and pls files. -/
def Playlist (c : Config) (mounts : List String) : List (String × String) :=
  (mounts.map fun m =>
    writePlaylist c m "m3u" m3uRender ++ writePlaylist c m "pls" plsRender).flatten

/-! ## Spec-side playlist formulations (for refinement claims C6/C10) -/

/-- Modelled from the spec's words: the entry list for non-master node `N`
at fleet index `i` "begins with N's own URL for that mount, followed by
every other non-master node's URL for that mount in fleet order". -/
def specEntryList (c : Config) (mount : String) (i : Nat) (s : Server) :
    List String :=
  urlEntry c mount s ::
    ((c.server.enum.filter fun p => !(p.2.kind == "master") && !(i == p.1)).map
      fun p => urlEntry c mount p.2)

/-- Modelled from the spec's words: the "line-per-URL list" encoding. -/
def specLineList (entries : List String) : String :=
  (entries.map fun e => e ++ "\n").foldr (· ++ ·) ""

/-- Modelled from the spec's words: the "indexed encoding with one-based
indices and a trailing total count equal to the number of entries". -/
def specIndexed (entries : List String) : String :=
  "\n[playlist]\n" ++ (entries.enum.map fun p => plsItem p.1 p.2).foldr (· ++ ·) "" ++
  "\nNumberOfEntries=" ++ toString entries.length ++ "\nVersion=2\n"

/-! ## The tail of `main` -/

/-- Observable events of the end of `main`: running the selected verb and
writing the state file. -/
inductive MainEvent where
  | runVerb
  | writeState
deriving Repr, DecidableEq

/-- The tail of `main` (after verb dispatch): if the verb returned an
error, `log.Fatal` exits non-zero at once; only otherwise is the state
file written, and a write error also exits non-zero.  Returns the events
that happened and whether the process exited successfully. -/
def mainFinish (verbResult writeResult : Except String Unit) :
    List MainEvent × Bool :=
  match verbResult with
  | .error _ => ([MainEvent.runVerb], false)
  | .ok _ =>
    match writeResult with
    | .error _ => ([MainEvent.runVerb, MainEvent.writeState], false)
    | .ok _ => ([MainEvent.runVerb, MainEvent.writeState], true)

/-! ## Auxiliary definitions used in statements -/

/-- Outcome one node contributes to the `Shutdown` aggregation: `true`
when it has no instance (skipped) or its termination succeeded. -/
def termedOk (term : String → Bool) (s : Server) : Bool :=
  match s.inst with
  | none => true
  | some i => term i.instanceId

/-- The complete per-node rollout event trace: render, upload, execute. -/
def fullRolloutTrace : List SetupEvent :=
  [SetupEvent.render, SetupEvent.ssh "cat > setup.sh",
   SetupEvent.ssh "bash setup.sh"]

/-! ## Concrete data for witnesses and counterexamples -/

/-- A concrete instance. -/
def instW (n : Nat) : Instance := ⟨"i-" ++ toString n, "dns-" ++ toString n⟩

/-- A not-yet-provisioned relay node. -/
def freshNode (nm : String) : Server :=
  { name := nm, kind := "slave", location := "USEast", username := "u",
    imageID := "ami-1", size := "t1.micro", numClients := 100, numSources := 2,
    inst := none }

/-- A provisioned node of the given kind. -/
def nodeW (nm kd : String) (n : Nat) : Server :=
  { name := nm, kind := kd, location := "Tokyo", username := "u",
    imageID := "ami-1", size := "t1.micro", numClients := 100, numSources := 2,
    inst := some (instW n) }

/-- A fresh three-node fleet. -/
def cFresh : Config :=
  { keyName := "k", server := [freshNode "a", freshNode "b", freshNode "c"],
    icecast := some ⟨"sp", "rp", "ap", 8000⟩ }

/-- A provisioned fleet: one master then three relays, in that order. -/
def cW : Config :=
  { keyName := "k",
    server := [nodeW "m" "master" 0, nodeW "a" "slave" 1, nodeW "b" "slave" 2,
               nodeW "c" "slave" 3],
    icecast := some ⟨"sp", "rp", "ap", 8000⟩ }

/-- An empty fleet (it vacuously has zero master nodes). -/
def cEmpty : Config :=
  { keyName := "k", server := [], icecast := some ⟨"sp", "rp", "ap", 8000⟩ }

/-- A nonempty fleet with zero master nodes. -/
def cNoMaster : Config :=
  { keyName := "k", server := [freshNode "a", freshNode "b"], icecast := none }

/-- Run oracles where creation succeeds for the first node and fails for
the second, and every termination succeeds. -/
def envC1 : RunEnv :=
  { runInst := fun i => if i = 0 then Except.ok [instW 1] else Except.error "boom",
    polls := fun _ _ => Except.error "net",
    term := fun _ => true }

/-- Run oracles where every creation succeeds but every readiness poll
hits a transport error and every termination would fail. -/
def envC8 : RunEnv :=
  { runInst := fun _ => Except.ok [instW 5],
    polls := fun _ _ => Except.error "net",
    term := fun _ => false }

/-- Setup oracles where rendering and every remote command succeed. -/
def envSetupOk : SetupEnv :=
  { tmpl := fun _ _ => Except.ok (), ssh := fun _ _ => Except.ok () }

/-- A poll oracle that always answers well-formed and reports the address
from 15 seconds onward. -/
def pollsW : Nat → Except String (List Reservation) :=
  fun t => Except.ok [⟨[⟨"i-9", if 15 ≤ t then "dns-9" else ""⟩]⟩]

/-! ## Helper lemmas -/

lemma foldl_and_eq (l : List Bool) (b : Bool) :
    l.foldl (fun a c => a && c) b = (b && l.all id) := by
  induction l generalizing b with
  | nil => simp
  | cons x xs ih => simp [List.foldl_cons, ih, Bool.and_assoc]

lemma shutdownLoop_eq (term : String → Bool) :
    ∀ (l : List Server) (b : Bool),
    shutdownLoop term l b =
      (l.filterMap (fun s => s.inst.map (·.instanceId)), b && l.all (termedOk term)) := by
  intro l
  induction l with
  | nil => intro b; simp [shutdownLoop]
  | cons s rest ih =>
    intro b
    cases hs : s.inst with
    | none => simp [shutdownLoop, hs, ih, termedOk]
    | some i => simp [shutdownLoop, hs, ih, termedOk, Bool.and_assoc]

lemma runInstance_err (r : Except String (List Instance)) (s : Server)
    (h : provOk r = false) : ∃ e, runInstance r s = Except.error e := by
  cases r with
  | error e => exact ⟨e, rfl⟩
  | ok insts =>
    refine ⟨"want 1 instance, got " ++ toString insts.length, ?_⟩
    have hne : insts.length ≠ 1 := by simpa [provOk] using h
    simp [runInstance, hne]

lemma runInstance_ok (r : Except String (List Instance)) (s : Server)
    (h : provOk r = true) : runInstance r s = Except.ok (provServer r s) := by
  cases r with
  | error e => simp [provOk] at h
  | ok insts =>
    have h1 : insts.length = 1 := by simpa [provOk] using h
    simp [runInstance, h1, provServer, provInst]

lemma runInstance_specPart {r : Except String (List Instance)} {s s' : Server}
    (h : runInstance r s = Except.ok s') : Server.specPart s' = Server.specPart s := by
  cases r with
  | error e => simp [runInstance] at h
  | ok insts =>
    by_cases h1 : insts.length = 1
    · simp [runInstance, h1] at h
      subst h
      rfl
    · simp [runInstance, h1] at h

lemma provInst_of_ok {r : Except String (List Instance)} (h : provOk r = true) :
    ∃ a, provInst r = some a ∧ provId r = a.instanceId := by
  cases r with
  | error e => simp [provOk] at h
  | ok insts =>
    cases insts with
    | nil => simp [provOk] at h
    | cons a rest =>
      cases rest with
      | nil => exact ⟨a, rfl, rfl⟩
      | cons b r2 => simp [provOk] at h

lemma range_map_shift {α : Type} (f : Nat → α) (k i : Nat) :
    (List.range (k + 1)).map (fun j => f (i + j)) =
      f i :: (List.range k).map (fun j => f (i + 1 + j)) := by
  rw [List.range_succ_eq_map, List.map_cons, List.map_map]
  have h : ((fun j => f (i + j)) ∘ Nat.succ) = fun j => f (i + 1 + j) := by
    funext x
    show f (i + Nat.succ x) = f (i + 1 + x)
    congr 1
    omega
  rw [h]
  simp

lemma provisionFrom_fail (env : Nat → Except String (List Instance)) :
    ∀ (l : List Server) (i k : Nat), k < l.length →
    (∀ j, j < k → provOk (env (i + j)) = true) →
    provOk (env (i + k)) = false →
    provisionFrom env i l =
      (provUpTo env i k l, (List.range (k + 1)).map (fun j => i + j), some (i + k)) := by
  intro l
  induction l with
  | nil => intro i k hk; simp at hk
  | cons s rest ih =>
    intro i k hk hsucc hfail
    cases k with
    | zero =>
      obtain ⟨e, he⟩ := runInstance_err (env i) s (by simpa using hfail)
      simp [provisionFrom, he, provUpTo, List.range_succ, List.range_zero]
    | succ k =>
      have h0 : provOk (env i) = true := by
        simpa using hsucc 0 (Nat.succ_pos k)
      have hrec := ih (i + 1) k (by simpa using hk)
          (by
            intro j hj
            have := hsucc (j + 1) (by omega)
            have he : i + (j + 1) = i + 1 + j := by omega
            rwa [he] at this)
          (by
            have he : i + (k + 1) = i + 1 + k := by omega
            rwa [he] at hfail)
      simp only [provisionFrom, runInstance_ok (env i) s h0, hrec, provUpTo]
      rw [range_map_shift (fun n => n) (k + 1) i]
      have he2 : i + (k + 1) = i + 1 + k := by omega
      rw [he2]

lemma provisionFrom_ok (env : Nat → Except String (List Instance)) :
    ∀ (l : List Server) (i : Nat),
    (∀ j, j < l.length → provOk (env (i + j)) = true) →
    provisionFrom env i l =
      (provUpTo env i l.length l, (List.range l.length).map (fun j => i + j), none) := by
  intro l
  induction l with
  | nil => intro i _; simp [provisionFrom, provUpTo]
  | cons s rest ih =>
    intro i hsucc
    have h0 : provOk (env i) = true := by
      simpa using hsucc 0 (by simp)
    have hrec := ih (i + 1)
        (by
          intro j hj
          have := hsucc (j + 1) (by simpa using Nat.succ_lt_succ hj)
          have he : i + (j + 1) = i + 1 + j := by omega
          rwa [he] at this)
    simp only [provisionFrom, runInstance_ok (env i) s h0, hrec, provUpTo,
      List.length_cons]
    rw [range_map_shift (fun n => n) rest.length i]

lemma provUpTo_length (env : Nat → Except String (List Instance)) :
    ∀ (l : List Server) (i k : Nat), (provUpTo env i k l).length = l.length := by
  intro l
  induction l with
  | nil => intro i k; cases k <;> simp [provUpTo]
  | cons s rest ih =>
    intro i k
    cases k with
    | zero => simp [provUpTo]
    | succ k => simp [provUpTo, ih]

lemma provUpTo_getElem?_lt (env : Nat → Except String (List Instance)) :
    ∀ (l : List Server) (i k j : Nat), j < k →
    (provUpTo env i k l)[j]? = (l[j]?).map fun s => provServer (env (i + j)) s := by
  intro l
  induction l with
  | nil => intro i k j _; cases k <;> simp [provUpTo]
  | cons s rest ih =>
    intro i k j hj
    cases k with
    | zero => omega
    | succ k =>
      cases j with
      | zero => simp [provUpTo]
      | succ j =>
        have he : i + (j + 1) = i + 1 + j := by omega
        simp [provUpTo, ih (i + 1) k j (by omega), he]

lemma provUpTo_getElem?_ge (env : Nat → Except String (List Instance)) :
    ∀ (l : List Server) (i k j : Nat), k ≤ j →
    (provUpTo env i k l)[j]? = l[j]? := by
  intro l
  induction l with
  | nil => intro i k j _; cases k <;> simp [provUpTo]
  | cons s rest ih =>
    intro i k j hkj
    cases k with
    | zero => simp [provUpTo]
    | succ k =>
      cases j with
      | zero => omega
      | succ j => simp [provUpTo, ih (i + 1) k j (by omega)]

lemma provUpTo_ids (env : Nat → Except String (List Instance)) :
    ∀ (l : List Server) (i k : Nat), k ≤ l.length →
    (∀ s ∈ l, s.inst = none) →
    (∀ j, j < k → provOk (env (i + j)) = true) →
    (provUpTo env i k l).filterMap (fun s => s.inst.map (·.instanceId)) =
      (List.range k).map (fun j => provId (env (i + j))) := by
  intro l
  induction l with
  | nil =>
    intro i k hk _ _
    have : k = 0 := by simpa using hk
    subst this
    simp [provUpTo]
  | cons s rest ih =>
    intro i k hk h0 hsucc
    cases k with
    | zero =>
      simp only [provUpTo, List.range_zero, List.map_nil]
      apply List.filterMap_eq_nil_iff.mpr
      intro a ha
      simp [h0 a ha]
    | succ k =>
      obtain ⟨a, ha, hid⟩ := provInst_of_ok (hsucc 0 (Nat.succ_pos k))
      have htail := ih (i + 1) k (by simpa using hk)
          (fun x hx => h0 x (List.mem_cons_of_mem s hx))
          (by
            intro j hj
            have := hsucc (j + 1) (by omega)
            have he : i + (j + 1) = i + 1 + j := by omega
            rwa [he] at this)
      rw [range_map_shift (fun j => provId (env j))]
      simp only [provUpTo, List.filterMap_cons, provServer]
      have hi0 : i + 0 = i := by omega
      rw [hi0] at ha
      simp [ha, htail, hid.symm]

lemma provUpTo_all_termedOk (env : Nat → Except String (List Instance))
    (term : String → Bool) :
    ∀ (l : List Server) (i k : Nat), k ≤ l.length →
    (∀ s ∈ l, s.inst = none) →
    (∀ j, j < k → provOk (env (i + j)) = true) →
    ((provUpTo env i k l).all (termedOk term) = true ↔
      ∀ j, j < k → term (provId (env (i + j))) = true) := by
  intro l
  induction l with
  | nil =>
    intro i k hk _ _
    have : k = 0 := by simpa using hk
    subst this
    simp [provUpTo]
  | cons s rest ih =>
    intro i k hk h0 hsucc
    cases k with
    | zero =>
      simp only [provUpTo]
      constructor
      · intro _ j hj; omega
      · intro _
        apply List.all_eq_true.mpr
        intro x hx
        simp [termedOk, h0 x hx]
    | succ k =>
      obtain ⟨a, ha, hid⟩ := provInst_of_ok (hsucc 0 (Nat.succ_pos k))
      have htail := ih (i + 1) k (by simpa using hk)
          (fun x hx => h0 x (List.mem_cons_of_mem s hx))
          (by
            intro j hj
            have := hsucc (j + 1) (by omega)
            have he : i + (j + 1) = i + 1 + j := by omega
            rwa [he] at this)
      have hi0 : i + 0 = i := by omega
      rw [hi0] at ha hid
      have hhead : termedOk term (provServer (env i) s) = term (provId (env i)) := by
        simp [termedOk, provServer, ha, hid]
      simp only [provUpTo, List.all_cons, hhead, Bool.and_eq_true, htail]
      constructor
      · rintro ⟨hh, ht⟩ j hj
        cases j with
        | zero => simpa using hh
        | succ j =>
          have := ht j (by omega)
          have he : i + 1 + j = i + (j + 1) := by omega
          rwa [he] at this
      · intro h
        refine ⟨by simpa using h 0 (Nat.succ_pos k), ?_⟩
        intro j hj
        have := h (j + 1) (by omega)
        have he : i + (j + 1) = i + 1 + j := by omega
        rwa [he] at this

lemma provisionFrom_shape (env : Nat → Except String (List Instance)) :
    ∀ (l : List Server) (i : Nat),
    (provisionFrom env i l).1.length = l.length
    ∧ ∀ j : Nat, (((provisionFrom env i l).1)[j]?).map Server.specPart =
        (l[j]?).map Server.specPart := by
  intro l
  induction l with
  | nil => intro i; simp [provisionFrom]
  | cons s rest ih =>
    intro i
    cases hr : runInstance (env i) s with
    | error e => simp [provisionFrom, hr]
    | ok s' =>
      obtain ⟨hlen, hpt⟩ := ih (i + 1)
      cases hrec : provisionFrom env (i + 1) rest with
      | mk rest' q =>
        rw [hrec] at hlen hpt
        simp only [provisionFrom, hr, hrec]
        constructor
        · simpa using hlen
        · intro j
          cases j with
          | zero => simpa using runInstance_specPart hr
          | succ j => simpa using hpt j

lemma getInstance_of_respInst (r : Except String (List Reservation)) (s : Server)
    (a : Instance) (h : respInst r = some a) :
    getInstance r s = Except.ok ({ s with inst := some a }, a) := by
  cases r with
  | error e => simp [respInst] at h
  | ok rs =>
    cases rs with
    | nil => simp [respInst] at h
    | cons r1 rs' =>
      cases rs' with
      | nil =>
        cases hri : r1.instances with
        | nil => simp [respInst, hri] at h
        | cons a1 arest =>
          cases arest with
          | nil =>
            simp only [respInst, hri, Option.some.injEq] at h
            subst h
            simp [getInstance, hri]
          | cons b brest => simp [respInst, hri] at h
      | cons r2 rs'' => simp [respInst] at h

lemma getInstance_ok_shape {r : Except String (List Reservation)} {s s' : Server}
    {a : Instance} (h : getInstance r s = Except.ok (s', a)) :
    s' = { s with inst := some a } := by
  cases r with
  | error e => simp [getInstance] at h
  | ok rs =>
    cases rs with
    | nil => simp [getInstance] at h
    | cons r1 rs' =>
      cases rs' with
      | nil =>
        cases hri : r1.instances with
        | nil => simp [getInstance, hri] at h
        | cons a1 arest =>
          cases arest with
          | nil =>
            simp only [getInstance, hri, Except.ok.injEq, Prod.mk.injEq] at h
            obtain ⟨h1, h2⟩ := h
            subst h2
            exact h1.symm
          | cons b brest => simp [getInstance, hri] at h
      | cons r2 rs'' => simp [getInstance] at h

lemma waitReadyFrom_ok_iff (polls : Nat → Except String (List Reservation)) :
    ∀ (n j : Nat) (s : Server), j + n = 24 →
    (∀ m, j ≤ m → m < 24 → (respInst (polls (5 * m))).isSome = true) →
    (((waitReadyFrom polls s (5 * j)).2 = Except.ok ()) ↔
      ∃ m, j ≤ m ∧ m < 24 ∧ pollDns polls m ≠ "") := by
  intro n
  induction n with
  | zero =>
    intro j s hj _
    have hj24 : j = 24 := by omega
    subst hj24
    rw [waitReadyFrom.eq_def, dif_neg (by omega)]
    constructor
    · intro h; simp at h
    · rintro ⟨m, hm1, hm2, _⟩; omega
  | succ n ih =>
    intro j s hj hwf
    have hjlt : j < 24 := by omega
    have ht : 5 * j < 120 := by omega
    obtain ⟨a, ha⟩ := Option.isSome_iff_exists.mp (hwf j (le_refl j) hjlt)
    have hget := getInstance_of_respInst (polls (5 * j)) s a ha
    rw [waitReadyFrom.eq_def, dif_pos ht, hget]
    by_cases hd : a.dnsName = ""
    · simp only [hd, ne_eq, not_true_eq_false, if_false]
      have h55 : 5 * j + 5 = 5 * (j + 1) := by omega
      rw [h55, ih (j + 1) _ (by omega) (fun m hm1 hm2 => hwf m (by omega) hm2)]
      constructor
      · rintro ⟨m, hm1, hm2, hm3⟩
        exact ⟨m, by omega, hm2, hm3⟩
      · rintro ⟨m, hm1, hm2, hm3⟩
        refine ⟨m, ?_, hm2, hm3⟩
        rcases Nat.eq_or_lt_of_le hm1 with he | hlt
        · exfalso
          apply hm3
          rw [← he]
          simp [pollDns, ha, hd]
        · omega
    · simp only [ne_eq, hd, not_false_iff, if_true]
      constructor
      · intro _
        refine ⟨j, le_refl j, hjlt, ?_⟩
        simpa [pollDns, ha] using hd
      · intro _
        trivial

lemma waitReadyFrom_timeout (polls : Nat → Except String (List Reservation)) :
    ∀ (n j : Nat) (s : Server), j + n = 24 →
    (∀ m, j ≤ m → m < 24 →
      (respInst (polls (5 * m))).isSome = true ∧ pollDns polls m = "") →
    (waitReadyFrom polls s (5 * j)).2 =
      Except.error "waitReady: server took too long" := by
  intro n
  induction n with
  | zero =>
    intro j s hj _
    have hj24 : j = 24 := by omega
    subst hj24
    rw [waitReadyFrom.eq_def, dif_neg (by omega)]
  | succ n ih =>
    intro j s hj hwf
    have hjlt : j < 24 := by omega
    have ht : 5 * j < 120 := by omega
    obtain ⟨hs, hdns⟩ := hwf j (le_refl j) hjlt
    obtain ⟨a, ha⟩ := Option.isSome_iff_exists.mp hs
    have hget := getInstance_of_respInst (polls (5 * j)) s a ha
    have hd : a.dnsName = "" := by simpa [pollDns, ha] using hdns
    rw [waitReadyFrom.eq_def, dif_pos ht, hget]
    simp only [hd, ne_eq, not_true_eq_false, if_false]
    have h55 : 5 * j + 5 = 5 * (j + 1) := by omega
    rw [h55]
    exact ih (j + 1) _ (by omega) (fun m hm1 hm2 => hwf m (by omega) hm2)

lemma waitReadyFrom_error (polls : Nat → Except String (List Reservation)) :
    ∀ (n j jerr : Nat) (s : Server) (e : String), j + n = 24 →
    j ≤ jerr → jerr < 24 →
    (∀ m, j ≤ m → m < jerr →
      (respInst (polls (5 * m))).isSome = true ∧ pollDns polls m = "") →
    polls (5 * jerr) = Except.error e →
    (waitReadyFrom polls s (5 * j)).2 = Except.error e := by
  intro n
  induction n with
  | zero => intro j jerr s e hj hle hlt _ _; omega
  | succ n ih =>
    intro j jerr s e hj hle hlt hwf herr
    have ht : 5 * j < 120 := by omega
    rcases Nat.eq_or_lt_of_le hle with heq | hltj
    · subst heq
      rw [waitReadyFrom.eq_def, dif_pos ht, herr]
      simp [getInstance]
    · obtain ⟨hs, hdns⟩ := hwf j (le_refl j) (by omega)
      obtain ⟨a, ha⟩ := Option.isSome_iff_exists.mp hs
      have hget := getInstance_of_respInst (polls (5 * j)) s a ha
      have hd : a.dnsName = "" := by simpa [pollDns, ha] using hdns
      rw [waitReadyFrom.eq_def, dif_pos ht, hget]
      simp only [hd, ne_eq, not_true_eq_false, if_false]
      have h55 : 5 * j + 5 = 5 * (j + 1) := by omega
      rw [h55]
      exact ih (j + 1) jerr _ e (by omega) (by omega) hlt
        (fun m hm1 hm2 => hwf m (by omega) hm2) herr

lemma waitReadyFrom_specPart (polls : Nat → Except String (List Reservation)) :
    ∀ (fuel t : Nat) (s : Server), 120 - t ≤ fuel →
    Server.specPart (waitReadyFrom polls s t).1 = Server.specPart s := by
  intro fuel
  induction fuel with
  | zero =>
    intro t s h
    rw [waitReadyFrom.eq_def, dif_neg (by omega)]
  | succ fuel ih =>
    intro t s h
    rw [waitReadyFrom.eq_def]
    by_cases ht : t < 120
    · rw [dif_pos ht]
      cases hg : getInstance (polls t) s with
      | error e => rfl
      | ok p =>
        obtain ⟨s', a⟩ := p
        have hs' : s' = { s with inst := some a } := getInstance_ok_shape hg
        by_cases hd : a.dnsName = ""
        · simp only [hd, ne_eq, not_true_eq_false, if_false]
          rw [ih (t + 5) s' (by omega), hs']
          rfl
        · simp only [ne_eq, hd, not_false_iff, if_true]
          rw [hs']
          rfl
    · rw [dif_neg ht]

lemma filterMap_ite {α β : Type} (p : α → Bool) (g : α → β) :
    ∀ l : List α,
    l.filterMap (fun x => if p x then none else some (g x)) =
      (l.filter fun x => !(p x)).map g := by
  intro l
  induction l with
  | nil => rfl
  | cons x xs ih =>
    cases hx : p x <;> simp [List.filterMap_cons, List.filter_cons, hx, ih]

lemma m3uRender_eq_specLineList : ∀ l : List String, m3uRender l = specLineList l := by
  intro l
  induction l with
  | nil => rfl
  | cons s rest ih =>
    simp only [m3uRender, specLineList, List.map_cons, List.foldr_cons, ih,
      String.append_assoc]

lemma plsBody_enumFrom : ∀ (l : List String) (i : Nat),
    plsBody i l = ((l.enumFrom i).map fun p => plsItem p.1 p.2).foldr (· ++ ·) "" := by
  intro l
  induction l with
  | nil => intro i; rfl
  | cons s rest ih =>
    intro i
    simp only [plsBody, List.enumFrom, List.map_cons, List.foldr_cons, ih]

lemma plsRender_eq_specIndexed (entries : List String) :
    plsRender entries = specIndexed entries := by
  unfold plsRender specIndexed
  rw [show entries.enum = entries.enumFrom 0 from rfl, ← plsBody_enumFrom]

lemma setupRollout_congr (env env' : SetupEnv) (s : Server) (r : Except String Unit)
    (hssh : env.ssh s = env'.ssh s) :
    setupRollout env s r = setupRollout env' s r := by
  unfold setupRollout sshCommand
  rw [hssh]

lemma setupRollout_take (env : SetupEnv) (s : Server) (r : Except String Unit) :
    ∃ n, n ≤ 3 ∧ (setupRollout env s r).1 = fullRolloutTrace.take n := by
  cases r with
  | error e => exact ⟨1, by omega, rfl⟩
  | ok u =>
    cases hsi : s.inst with
    | none =>
      refine ⟨1, by omega, ?_⟩
      simp [setupRollout, sshCommand, hsi, fullRolloutTrace]
    | some i =>
      cases hc : env.ssh s "cat > setup.sh" with
      | error e =>
        refine ⟨2, by omega, ?_⟩
        simp [setupRollout, sshCommand, hsi, hc, fullRolloutTrace]
      | ok u2 =>
        refine ⟨3, by omega, ?_⟩
        simp [setupRollout, sshCommand, hsi, hc, fullRolloutTrace]

lemma all_id_map {α : Type} (f : α → Bool) (l : List α) :
    (l.map f).all id = l.all f := by
  induction l with
  | nil => rfl
  | cons x xs ih => simp [List.all_cons, ih]

lemma Setup_ok_iff (env : SetupEnv) (c : Config) :
    Setup env c = Except.ok () ↔
      ∀ s ∈ c.server, exceptOk (setupInstance env c s).2 = true := by
  unfold Setup
  simp only [foldl_and_eq, Bool.true_and, all_id_map]
  constructor
  · intro h s hs
    cases hall : c.server.all (fun s => exceptOk (setupInstance env c s).2) with
    | true => exact List.all_eq_true.mp hall s hs
    | false =>
      rw [hall] at h
      simp at h
  · intro h
    have hall : c.server.all (fun s => exceptOk (setupInstance env c s).2) = true :=
      List.all_eq_true.mpr h
    rw [hall]
    rfl

/-! ## Claim theorems -/

/-- Claim C7: `Shutdown` requests termination for exactly the nodes that
have a live instance identifier (in fleet order), skipping nodes without
one without error and never exiting early on a per-node failure, and
reports overall failure iff at least one node with a live instance failed
to terminate. -/
theorem claim_C7 (term : String → Bool) (servers : List Server) :
    (Shutdown term servers).1 =
      servers.filterMap (fun s => s.inst.map (·.instanceId))
    ∧ ((Shutdown term servers).2 = Except.ok () ↔
      ∀ s ∈ servers, ∀ i, s.inst = some i → term i.instanceId = true) := by
  unfold Shutdown
  rw [shutdownLoop_eq]
  simp only [Bool.true_and]
  refine ⟨by trivial, ?_, ?_⟩
  · intro h s hs i hi
    cases hall : servers.all (termedOk term) with
    | true =>
      have := List.all_eq_true.mp hall s hs
      simpa [termedOk, hi] using this
    | false =>
      rw [hall] at h
      simp at h
  · intro h
    have hall : servers.all (termedOk term) = true := by
      apply List.all_eq_true.mpr
      intro s hs
      cases hi : s.inst with
      | none => simp [termedOk, hi]
      | some i => simpa [termedOk, hi] using h s hs i hi
    rw [hall]
    rfl

/-- Claim C1 (amended): for a fresh fleet where instance creation succeeds
for the first `k` nodes and fails for the node at index `k` (provider
error or instance count ≠ 1), `Run` attempts provisioning strictly
sequentially in declaration order and never past index `k` (attempts are
exactly `0..k`), requests termination for exactly the `k` already
provisioned nodes, and returns the shutdown path's result instead of the
provisioning error: the command reports failure iff the rollback itself
failed — a fully successful rollback makes `run` report success. -/
theorem claim_C1_amended (env : RunEnv) (c : Config) (k : Nat)
    (h0 : ∀ s ∈ c.server, s.inst = none)
    (hk : k < c.server.length)
    (hsucc : ∀ j, j < k → provOk (env.runInst j) = true)
    (hfail : provOk (env.runInst k) = false) :
    (Run env c).attempts = List.range (k + 1)
    ∧ (Run env c).termReqs = (List.range k).map (fun j => provId (env.runInst j))
    ∧ ((Run env c).result = Except.ok () ↔
      ∀ j, j < k → env.term (provId (env.runInst j)) = true) := by
  have hp := provisionFrom_fail env.runInst c.server 0 k hk
      (by intro j hj; simpa using hsucc j hj)
      (by simpa using hfail)
  have hids := provUpTo_ids env.runInst c.server 0 k (by omega) h0
      (by intro j hj; simpa using hsucc j hj)
  have hall := provUpTo_all_termedOk env.runInst env.term c.server 0 k (by omega) h0
      (by intro j hj; simpa using hsucc j hj)
  simp only [Nat.zero_add] at hids hall
  have hsd : Shutdown env.term (provUpTo env.runInst 0 k c.server) =
      ((List.range k).map (fun j => provId (env.runInst j)),
       if (provUpTo env.runInst 0 k c.server).all (termedOk env.term)
       then Except.ok () else Except.error "some instances didn't shut down cleanly") := by
    unfold Shutdown
    rw [shutdownLoop_eq]
    simp only [Bool.true_and, hids]
  unfold Run
  cases hpv : provisionFrom env.runInst 0 c.server with
  | mk srv q =>
    cases q with
    | mk att fail =>
      rw [hpv] at hp
      injection hp with h1 h23
      injection h23 with h2 h3
      subst h1
      subst h2
      subst h3
      dsimp only
      rw [hsd]
      refine ⟨by simp, rfl, ?_, ?_⟩
      · intro hres
        cases hball : (provUpTo env.runInst 0 k c.server).all (termedOk env.term) with
        | true => exact hall.mp hball
        | false =>
          rw [hball] at hres
          simp at hres
      · intro hj
        rw [hall.mpr hj]
        rfl

/-- Claim C1 (counterexample): in a fresh three-node fleet where creation
succeeds for the first node, fails for the second, and every termination
succeeds, `Run` terminates exactly the first node and returns the
successful shutdown result — the command reports success, refuting the
claim's "the command reports failure". -/
theorem claim_C1_counterexample :
    (Run envC1 cFresh).termReqs = ["i-1"]
    ∧ (Run envC1 cFresh).result = Except.ok () := ⟨rfl, rfl⟩

/-- Claim C1 (witness): the amended theorem applied to a concrete fleet
and environment failing at the second node. -/
theorem claim_C1_witness :
    (Run envC1 cFresh).attempts = List.range 2
    ∧ (Run envC1 cFresh).termReqs = (List.range 1).map (fun j => provId (envC1.runInst j))
    ∧ ((Run envC1 cFresh).result = Except.ok () ↔
      ∀ j, j < 1 → envC1.term (provId (envC1.runInst j)) = true) :=
  claim_C1_amended envC1 cFresh 1 (by decide) (by decide) (by decide) (by decide)

/-- Claim C8: when provisioning succeeds for every node, `Run` reaches
the readiness barrier, incorporates every node's own wait outcome into
the final state (each node's final state is exactly the result of its own
poll loop, independent of every other node's polls), and returns success
regardless of all readiness outcomes — the poll oracles are completely
unconstrained here, so timeouts and transport errors cannot fail the
command or abort any other node's wait. -/
theorem claim_C8 (env : RunEnv) (c : Config)
    (h : ∀ j, j < c.server.length → provOk (env.runInst j) = true) :
    (Run env c).result = Except.ok ()
    ∧ (Run env c).config.server.length = c.server.length
    ∧ ∀ i : Nat, ∀ s : Server, c.server[i]? = some s →
        (Run env c).config.server[i]? =
          some (waitReadyFrom (env.polls i) (provServer (env.runInst i) s) 0).1 := by
  have hp := provisionFrom_ok env.runInst c.server 0
      (by intro j hj; simpa using h j hj)
  unfold Run
  rw [hp]
  refine ⟨rfl, ?_, ?_⟩
  · simp [List.enum_length, provUpTo_length]
  · intro i s hs
    have hi : i < c.server.length := by
      by_contra hge
      rw [List.getElem?_eq_none (by omega)] at hs
      exact Option.noConfusion hs
    simp only [List.getElem?_map, List.getElem?_enum]
    rw [provUpTo_getElem?_lt env.runInst c.server 0 c.server.length i hi, hs]
    simp

/-- Claim C8 (witness): a concrete fleet where every creation succeeds
and every readiness poll hits a transport error still reports success. -/
theorem claim_C8_witness :
    (Run envC8 cFresh).result = Except.ok () :=
  (claim_C8 envC8 cFresh (by decide)).1

/-- Claim C9: `Run` (the only verb whose source writes any state — in
`runInstance` and `getInstance`) never mutates the user-authored fleet
specification: key name, credential set (passwords and listen port),
fleet size and every node's name, kind, location, login identity, image
identifier, size and capacity limits are identical before and after; only
the per-node runtime instance state is written. -/
theorem claim_C9 (env : RunEnv) (c : Config) :
    (Run env c).config.keyName = c.keyName
    ∧ (Run env c).config.icecast = c.icecast
    ∧ (Run env c).config.server.length = c.server.length
    ∧ ∀ i : Nat, ((Run env c).config.server[i]?).map Server.specPart =
        (c.server[i]?).map Server.specPart := by
  obtain ⟨hlen, hpt⟩ := provisionFrom_shape env.runInst c.server 0
  unfold Run
  cases hpv : provisionFrom env.runInst 0 c.server with
  | mk srv q =>
    rw [hpv] at hlen hpt
    cases q with
    | mk att fail =>
      cases fail with
      | some v =>
        cases hsd : Shutdown env.term srv with
        | mk reqs res => exact ⟨rfl, rfl, hlen, hpt⟩
      | none =>
        refine ⟨rfl, rfl, ?_, ?_⟩
        · simp [List.enum_length, hlen]
        · intro i
          simp only [List.getElem?_map, List.getElem?_enum]
          have hthis := hpt i
          cases hsq : srv[i]? with
          | none =>
            rw [hsq] at hthis
            cases hcq : c.server[i]? with
            | none => simp
            | some x =>
              rw [hcq] at hthis
              simp at hthis
          | some x =>
            rw [hsq] at hthis
            cases hcq : c.server[i]? with
            | none =>
              rw [hcq] at hthis
              simp at hthis
            | some y =>
              rw [hcq] at hthis
              simp only [Option.map_some'] at hthis ⊢
              simp only [Option.map_some', Option.some.injEq]
              rw [waitReadyFrom_specPart (env.polls i) 120 0 x (by omega)]
              simpa using hthis

/-- Claim C2 (counterexample): when the verb fails, `log.Fatal` exits the
process before `config.Write` runs — the state file is not written and
the process exits non-zero, refuting "the state is written at the end of
every invocation regardless of success or failure". -/
theorem claim_C2_counterexample :
    MainEvent.writeState ∉ (mainFinish (Except.error "verb failed") (Except.ok ())).1
    ∧ (mainFinish (Except.error "verb failed") (Except.ok ())).2 = false := by
  decide

/-- Claim C2 (amended): the state file is written iff the selected verb
succeeded; on verb failure the process exits non-zero without persisting;
the process exits successfully iff both the verb and the state write
succeeded. -/
theorem claim_C2_amended (r w : Except String Unit) :
    (MainEvent.writeState ∈ (mainFinish r w).1 ↔ exceptOk r = true)
    ∧ ((mainFinish r w).2 = true ↔ exceptOk r = true ∧ exceptOk w = true) := by
  cases r <;> cases w <;> simp [mainFinish, exceptOk]

/-- Claim C3: `waitReady` polls at a fixed 5-second interval against a
120-second deadline (polls happen at t = 0, 5, ..., 115 — 24 polls, the
last strictly before the deadline).  Under well-formed responses it
succeeds iff some poll within the deadline reports a non-empty address;
if every poll within the deadline reports an empty address it returns the
timeout error; and a transport error at any poll it reaches is returned
immediately, without retrying. -/
theorem claim_C3 (polls : Nat → Except String (List Reservation)) (s : Server) :
    ((∀ m, m < 24 → (respInst (polls (5 * m))).isSome = true) →
      (((waitReady polls s).2 = Except.ok ()) ↔ ∃ m, m < 24 ∧ pollDns polls m ≠ "")
      ∧ ((∀ m, m < 24 → pollDns polls m = "") →
        (waitReady polls s).2 = Except.error "waitReady: server took too long"))
    ∧ (∀ jerr e, jerr < 24 →
      (∀ m, m < jerr →
        (respInst (polls (5 * m))).isSome = true ∧ pollDns polls m = "") →
      polls (5 * jerr) = Except.error e →
      (waitReady polls s).2 = Except.error e) := by
  refine ⟨fun hwf => ⟨?_, ?_⟩, ?_⟩
  · have h := waitReadyFrom_ok_iff polls 24 0 s (by omega) (fun m _ hm => hwf m hm)
    simp only [Nat.mul_zero, Nat.zero_le, true_and] at h
    exact h
  · intro hempty
    have h := waitReadyFrom_timeout polls 24 0 s (by omega)
        (fun m _ hm => ⟨hwf m hm, hempty m hm⟩)
    simpa using h
  · intro jerr e hjerr hpre herr
    have h := waitReadyFrom_error polls 24 0 jerr s e (by omega) (by omega) hjerr
        (fun m _ hm => hpre m hm) herr
    simpa using h

/-- Claim C3 (witness): with always-well-formed polls whose address first
appears at 15 seconds, the wait succeeds. -/
theorem claim_C3_witness :
    (waitReady pollsW (freshNode "a")).2 = Except.ok () :=
  ((claim_C3 pollsW (freshNode "a")).1 (by decide)).1.mpr ⟨3, by decide, by decide⟩

/-- Claim C4: `Setup` succeeds iff every node's rollout succeeded (the
logical AND of per-node outcomes); a node's outcome depends only on its
own oracles (so another node's failure cannot change it and every node is
attempted independently); and every node's rollout trace is a prefix of
render–upload–execute: no retry, and no termination/rollback event can
occur in a rollout. -/
theorem claim_C4 (env : SetupEnv) (c : Config) :
    (Setup env c = Except.ok () ↔
      ∀ s ∈ c.server, exceptOk (setupInstance env c s).2 = true)
    ∧ (∀ env' : SetupEnv, ∀ s : Server,
      env.tmpl s = env'.tmpl s → env.ssh s = env'.ssh s →
      setupInstance env c s = setupInstance env' c s)
    ∧ (∀ s : Server, ∃ n, n ≤ 3 ∧ (setupInstance env c s).1 = fullRolloutTrace.take n) := by
  refine ⟨Setup_ok_iff env c, ?_, ?_⟩
  · intro env' s htmpl hssh
    unfold setupInstance
    split
    · rw [htmpl]
      exact setupRollout_congr env env' s (env'.tmpl s none) hssh
    · cases hf : c.server.find? (fun n => n.kind == "master") with
      | none => rfl
      | some m =>
        rw [htmpl]
        exact setupRollout_congr env env' s (env'.tmpl s (some m)) hssh
  · intro s
    unfold setupInstance
    split
    · exact setupRollout_take env s (env.tmpl s none)
    · cases hf : c.server.find? (fun n => n.kind == "master") with
      | none => exact ⟨0, by omega, rfl⟩
      | some m => exact setupRollout_take env s (env.tmpl s (some m))

/-- Claim C4 (witness): on the provisioned fleet with all-success
oracles, `Setup` succeeds via the AND characterization. -/
theorem claim_C4_witness :
    Setup envSetupOk cW = Except.ok () :=
  (claim_C4 envSetupOk cW).1.mpr (by decide)

/-- Claim C5 (counterexample): the empty fleet contains zero nodes with
role `master`, yet `Setup` succeeds — it does not fail with a
missing-master error, refuting the claim as stated ("for every fleet
containing zero nodes with role master, the setup operation fails"). -/
theorem claim_C5_counterexample :
    (∀ s ∈ cEmpty.server, s.kind ≠ "master")
    ∧ Setup envSetupOk cEmpty = Except.ok () := by
  constructor
  · intro s hs
    simp [cEmpty] at hs
  · rfl

/-- Claim C5 (amended): for every NONEMPTY fleet with zero master nodes,
every node's rollout fails with the missing-master error before any
script is rendered or any remote command is issued (its event trace is
empty), and `Setup` reports overall failure, with the aggregate rollout
error rather than the per-node missing-master message. -/
theorem claim_C5_amended (env : SetupEnv) (c : Config)
    (hne : c.server ≠ [])
    (hnm : ∀ s ∈ c.server, s.kind ≠ "master") :
    (∀ s ∈ c.server,
      setupInstance env c s = ([], Except.error "no master found in config"))
    ∧ Setup env c = Except.error "some instances didn't set up cleanly" := by
  have hfind : c.server.find? (fun n => n.kind == "master") = none := by
    apply List.find?_eq_none.mpr
    intro s hs
    simpa using hnm s hs
  have hnode : ∀ s ∈ c.server,
      setupInstance env c s = ([], Except.error "no master found in config") := by
    intro s hs
    have hk : (s.kind == "master") = false := by
      simpa using hnm s hs
    unfold setupInstance
    simp [hk, hfind]
  refine ⟨hnode, ?_⟩
  obtain ⟨s0, hs0⟩ := List.exists_mem_of_ne_nil c.server hne
  have hf0 : exceptOk (setupInstance env c s0).2 = false := by
    rw [hnode s0 hs0]
    rfl
  have hall : c.server.all (fun s => exceptOk (setupInstance env c s).2) = false := by
    cases hb : c.server.all (fun s => exceptOk (setupInstance env c s).2) with
    | false => rfl
    | true =>
      have := List.all_eq_true.mp hb s0 hs0
      rw [hf0] at this
      exact absurd this (by simp)
  unfold Setup
  simp only [foldl_and_eq, Bool.true_and, all_id_map]
  rw [hall]
  rfl

/-- Claim C5 (witness): the amended theorem at a concrete two-node fleet
with no master node. -/
theorem claim_C5_witness :
    (∀ s ∈ cNoMaster.server,
      setupInstance envSetupOk cNoMaster s =
        ([], Except.error "no master found in config"))
    ∧ Setup envSetupOk cNoMaster =
        Except.error "some instances didn't set up cleanly" :=
  claim_C5_amended envSetupOk cNoMaster (by decide) (by decide)

/-- Claim C6: for every mount and every non-master node at fleet index
`i`, the generated entry list is exactly the spec's entry list — the
node's own URL first, then every other non-master node's URL in fleet
order (master excluded from every playlist, own entry not duplicated);
both encodings are produced as files `<mount>-<name>.m3u` and `.pls`, the
m3u content is the line-per-URL encoding, and the pls content is the
one-based indexed encoding with a trailing `NumberOfEntries` count equal
to the number of entries. -/
theorem claim_C6 (c : Config) (mount : String) (i : Nat) (s : Server)
    (hs : c.server[i]? = some s) (hm : s.kind ≠ "master") :
    playlistServers c mount i s = specEntryList c mount i s
    ∧ (mount ++ "-" ++ s.name ++ "." ++ "m3u",
        m3uRender (playlistServers c mount i s)) ∈ writePlaylist c mount "m3u" m3uRender
    ∧ (mount ++ "-" ++ s.name ++ "." ++ "pls",
        plsRender (playlistServers c mount i s)) ∈ writePlaylist c mount "pls" plsRender
    ∧ m3uRender (playlistServers c mount i s) = specLineList (playlistServers c mount i s)
    ∧ plsRender (playlistServers c mount i s) = specIndexed (playlistServers c mount i s) := by
  have hkb : (s.kind == "master") = false := by simpa using hm
  have henum : (i, s) ∈ c.server.enum := List.mk_mem_enum_iff_getElem?.mpr hs
  refine ⟨?_, ?_, ?_, m3uRender_eq_specLineList _, plsRender_eq_specIndexed _⟩
  · unfold playlistServers specEntryList
    congr 1
    rw [filterMap_ite (fun p : Nat × Server => p.2.kind == "master" || i == p.1)
        (fun p : Nat × Server => urlEntry c mount p.2)]
    congr 1
    apply List.filter_congr
    intro p _
    simp [Bool.not_or]
  · apply List.mem_filterMap.mpr
    refine ⟨(i, s), henum, ?_⟩
    simp [writePlaylist, hkb]
  · apply List.mem_filterMap.mpr
    refine ⟨(i, s), henum, ?_⟩
    simp [writePlaylist, hkb]

/-- Claim C6 (witness): the theorem applied to the concrete fleet
`[master, a, b, c]` with node `a` at index 1 and mount `live`. -/
theorem claim_C6_witness :
    playlistServers cW "live" 1 (nodeW "a" "slave" 1) =
      specEntryList cW "live" 1 (nodeW "a" "slave" 1) :=
  (claim_C6 cW "live" 1 (nodeW "a" "slave" 1) rfl (by decide)).1

/-- Claim C10: when a node has no provisioned instance or the credential
set is absent, `ServerURL` returns the empty string rather than failing,
so the playlist entry for such a non-master node is the bare mount name
with no host prefix — in particular it heads that node's own entry
list. -/
theorem claim_C10 (c : Config) (s : Server) (mount : String) (i : Nat)
    (h : s.inst = none ∨ c.icecast = none) :
    ServerURL c s = ""
    ∧ urlEntry c mount s = mount
    ∧ (playlistServers c mount i s).head? = some mount := by
  have hurl : ServerURL c s = "" := by
    rcases h with h | h
    · cases hic : c.icecast <;> simp [ServerURL, h, hic]
    · cases hsi : s.inst <;> simp [ServerURL, h, hsi]
  have hentry : urlEntry c mount s = mount := by
    unfold urlEntry
    rw [hurl]
    cases mount
    rfl
  refine ⟨hurl, hentry, ?_⟩
  simp [playlistServers, hentry]

/-- Claim C10 (witness): a fresh (unprovisioned) non-master node yields
the bare mount name. -/
theorem claim_C10_witness :
    ServerURL cFresh (freshNode "a") = ""
    ∧ urlEntry cFresh "live" (freshNode "a") = "live"
    ∧ (playlistServers cFresh "live" 0 (freshNode "a")).head? = some "live" :=
  claim_C10 cFresh (freshNode "a") "live" 0 (Or.inl rfl)

/-- Claim C2 (witness): when the verb succeeds, the state write is
reached. -/
theorem claim_C2_witness :
    MainEvent.writeState ∈ (mainFinish (Except.ok ()) (Except.ok ())).1 :=
  (claim_C2_amended (Except.ok ()) (Except.ok ())).1.mpr rfl

/-- Claim C7 (witness): on the provisioned fleet with all terminations
succeeding, `Shutdown` reports success. -/
theorem claim_C7_witness :
    (Shutdown (fun _ => true) cW.server).2 = Except.ok () :=
  (claim_C7 (fun _ => true) cW.server).2.mpr (fun _ _ _ _ => rfl)

/-- Claim C9 (witness): a run over the concrete fleet leaves the
credential set untouched. -/
theorem claim_C9_witness :
    (Run envC8 cFresh).config.icecast = cFresh.icecast :=
  (claim_C9 envC8 cFresh).2.1
